import Mathlib

/-!
Verification of the MortisPlayQABot moderation queue (src/bot.py, src/server.py).

The Python source is shallowly embedded below.  Handlers read the questions
file, mutate the parsed collection and write it back; here the collection is a
`List Question` passed in and returned.  Chat transport (telegram objects,
markup, logging) is not modelled; the pipeline and state-machine logic is
transcribed check for check from the source.  Python strings are Lean
`String`s; all character-level helpers below reproduce the exact CPython
behaviour on the character classes the bot handles (ASCII and Cyrillic).
-/

namespace MortisQA

/-! ## Python string primitives used by bot.py -/

/-- Python `str.lower` for the characters this bot handles: ASCII `A`-`Z`,
Cyrillic `А`-`Я` (U+0410..U+042F, lowered by +0x20) and `Ё` (U+0401 → U+0451).
Other characters are unchanged, as in CPython for non-cased characters. -/
def pyLowerChar (c : Char) : Char :=
  if c.toNat ≥ 0x41 && c.toNat ≤ 0x5A then Char.ofNat (c.toNat + 32)
  else if c.toNat ≥ 0x410 && c.toNat ≤ 0x42F then Char.ofNat (c.toNat + 32)
  else if c.toNat == 0x401 then Char.ofNat 0x451
  else c

/-- Python `str.lower` (see `pyLowerChar`). -/
def pyLower (s : String) : String := String.mk (s.data.map pyLowerChar)

/-- Python `str.isspace` characters relevant to `str.strip()` / `str.split()`:
space, tab, newline, carriage return, vertical tab, form feed. -/
def pyWhitespace (c : Char) : Bool :=
  c == ' ' || c == '\t' || c == '\n' || c == '\r' || c.toNat == 11 || c.toNat == 12

/-- Python `str.strip()`: drop leading and trailing whitespace. -/
def pyStrip (s : String) : String :=
  String.mk (((s.data.dropWhile pyWhitespace).reverse.dropWhile pyWhitespace).reverse)

/-- One maximal non-whitespace word starting the list. -/
def takeWord (cs : List Char) : List Char := cs.takeWhile (fun c => !pyWhitespace c)

/-- Drop one maximal non-whitespace word starting the list. -/
def dropWord (cs : List Char) : List Char := cs.dropWhile (fun c => !pyWhitespace c)

/-- Python `str.split()` with no argument on a character list: maximal runs of
non-whitespace characters, with no empty pieces.  Fuel is the list length;
every step consumes at least one character. -/
def splitWsAux : Nat → List Char → List (List Char)
  | 0, _ => []
  | _, [] => []
  | fuel + 1, c :: cs =>
    if pyWhitespace c then splitWsAux fuel cs
    else takeWord (c :: cs) :: splitWsAux fuel (dropWord cs)

/-- Python `str.split()` with no argument. -/
def pySplit (s : String) : List String := (splitWsAux s.data.length s.data).map String.mk

/-- Whether `needle` starts `hay` (character lists). -/
def isPrefixOfL : List Char → List Char → Bool
  | [], _ => true
  | _ :: _, [] => false
  | n :: ns, h :: hs => n == h && isPrefixOfL ns hs

/-- Whether `needle` occurs contiguously inside the list (Python `in` on str). -/
def containsSub (needle : List Char) : List Char → Bool
  | [] => needle.isEmpty
  | c :: hs => isPrefixOfL needle (c :: hs) || containsSub needle hs

/-- Python `sub in hay` for strings. -/
def containsStr (hay sub : String) : Bool := containsSub sub.data hay.data

/-- Python `\w` (re word character) for the character classes this bot sees:
ASCII alphanumerics, underscore, and the Cyrillic block U+0400..U+04FF. -/
def pyIsWordChar (c : Char) : Bool :=
  c.isAlpha || c.isDigit || c == '_' ||
  (0x400 ≤ c.toNat && c.toNat ≤ 0x4FF)

/-! ## bot.py: check_question_meaning -/

/-- bot.py `bot_keywords`. -/
def bot_keywords : List String :=
  ["бот", "telegram", "телега", "телеграм", "bot", "@groupanonymousbot"]

/-- bot.py `question_words`. -/
def question_words : List String :=
  ["что", "как", "почему", "где", "когда", "какой", "какая", "какое", "кто", "зачем", "сколько"]

/-- `re.match(r'^(.)\1{4,}$', s)`: the whole string is one character repeated
at least five times (`.` does not match a newline). -/
def allSameRun : List Char → Bool
  | [] => false
  | c :: rest => decide (4 ≤ rest.length) && c != '\n' && rest.all (· == c)

/-- `re.match(r'^(\W)\1{4,}$', s)`: one non-word character repeated at least
five times, making up the whole string. -/
def allSameNonWordRun : List Char → Bool
  | [] => false
  | c :: rest => decide (4 ≤ rest.length) && !pyIsWordChar c && rest.all (· == c)

/-- Maximal runs of word characters alternating with runs of non-word
characters, in order. -/
def classRuns (cs : List Char) : List (List Char) :=
  cs.splitBy (fun x y => pyIsWordChar x == pyIsWordChar y)

/-- `re.search(r'\b\w*\d+\w*\b\s+\b\w*\d+\w*\b', s)` over the run
decomposition: a word run containing a digit, separated by pure whitespace
from another word run containing a digit. -/
def hasDigitWordPair : List (List Char) → Bool
  | r1 :: r2 :: r3 :: rest =>
    (pyIsWordChar (r1.headD ' ') && r1.any Char.isDigit &&
     r2.all pyWhitespace && pyIsWordChar (r3.headD ' ') && r3.any Char.isDigit)
    || hasDigitWordPair (r2 :: r3 :: rest)
  | _ => false

/-- `re.match(r'^\w{2,}(\w)\1{2,}', s)`: for some `j ≥ 2` the first `j + 3`
characters are word characters and positions `j`, `j+1`, `j+2` hold the same
character (the regex backtracks over the greedy `\w{2,}`). -/
def hasEarlyTriple (cs : List Char) : Bool :=
  (List.range cs.length).any (fun j =>
    decide (2 ≤ j) && decide (j + 2 < cs.length) &&
    (cs.take (j + 3)).all pyIsWordChar &&
    cs.getD (j + 1) ' ' == cs.getD j ' ' && cs.getD (j + 2) ' ' == cs.getD j ' ')

/-- bot.py `check_question_meaning`: the semantic-plausibility check, returning
`(is_valid, reason)` with the source's reason strings, applied to the
lowercased, stripped text. -/
def check_question_meaning (question : String) : Bool × String :=
  let ql := pyStrip (pyLower question)
  if bot_keywords.any (fun k => containsStr ql k) then
    (false, "Вопросы о боте или от имени бота запрещены. Задайте вопрос о контенте Mortis Play!")
  else if decide (ql.length < 10) then
    (false, "Вопрос слишком короткий (менее 10 символов).")
  else if allSameRun (ql.data.filter (fun c => c != ' ')) || allSameNonWordRun ql.data then
    (false, "Вопрос содержит повторяющиеся символы.")
  else if (let ws := pySplit ql
           decide (1 < ws.length) && ws.all (fun w => w == ws.headD "")) then
    (false, "Вопрос состоит из повторяющихся слов.")
  else if hasDigitWordPair (classRuns ql.data) then
    (false, "Вопрос содержит подозрительные слова с цифрами (например, 'мортис1 мортис2').")
  else if hasEarlyTriple (ql.data.filter (fun c => c != ' ')) then
    (false, "Вопрос содержит бессмысленные повторяющиеся последовательности.")
  else if !((question_words.any (fun w => containsStr ql w) || containsStr ql "?") &&
            decide (3 ≤ (pySplit ql).length)) then
    (false, "Вопрос не содержит вопросительных слов или слишком прост.")
  else (true, "")

/-! ## difflib.SequenceMatcher (as used with `isjunk = None`)

`check_question_similarity` computes
`difflib.SequenceMatcher(None, a, b).ratio()` and compares it with the
threshold 0.6.  The matcher is reproduced below: `b2j` maps each character of
`b` to its ascending index list (with the autojunk "popular" rule for
`len(b) ≥ 200`); `find_longest_match` is the dynamic scan plus the two
extension loops (the junk set is empty when `isjunk` is `None`, so the junk
extension loops never fire); the total matched size is the recursive sum over
matching blocks.  The final float comparison `2*M/T > 0.6` is decided exactly
as the integer comparison `3*T < 10*M`: with `T ≤ 1000` the rational `2M/T`
differs from `3/5` either by `0` (both sides then round to the same double, so
`>` is false) or by at least `1/(5T) ≥ 2·10⁻⁴`, far above the `≈ 10⁻¹⁶`
rounding error of the two float operations. -/

/-- Append index `j` to the entry of character `c` (difflib `b2j` build). -/
def addIdx : List (Char × List Nat) → Char → Nat → List (Char × List Nat)
  | [], c, j => [(c, [j])]
  | (c', js) :: rest, c, j =>
    if c' == c then (c', js ++ [j]) :: rest else (c', js) :: addIdx rest c j

/-- difflib `b2j` before the autojunk rule: character → ascending index list. -/
def buildB2j (b : List Char) : List (Char × List Nat) :=
  b.enum.foldl (fun m p => addIdx m p.2 p.1) []

/-- difflib `__chain_b`: `b2j` with popular characters removed when
`len(b) ≥ 200` (autojunk); the junk set stays empty since `isjunk` is None. -/
def chainB (b : List Char) : List (Char × List Nat) :=
  let m := buildB2j b
  if 200 ≤ b.length then
    let ntest := b.length / 100 + 1
    m.filter (fun p => decide (p.2.length ≤ ntest))
  else m

/-- Index list of a character under `b2j` (`b2j.get(c, [])`). -/
def getIdxs (m : List (Char × List Nat)) (c : Char) : List Nat :=
  match m.find? (fun p => p.1 == c) with
  | some p => p.2
  | none => []

/-- `j2len.get(j, 0)`. -/
def lookupJ2 (m : List (Nat × Nat)) (j : Nat) : Nat :=
  match m.find? (fun p => p.1 == j) with
  | some p => p.2
  | none => 0

/-- The running best match of `find_longest_match`. -/
structure FlmBest where
  besti : Nat
  bestj : Nat
  size : Nat
deriving Repr, DecidableEq

/-- Inner loop of `find_longest_match` for one position `i` of `a`: fold over
the `b2j` indices of `a[i]`, building this row's `newj2len` and updating the
best match.  Skipping `j ≥ bhi` equals Python's `break` since the index lists
are ascending. -/
def flmInner (i blo bhi : Nat) (j2len : List (Nat × Nat)) (idxs : List Nat)
    (start : List (Nat × Nat) × FlmBest) : List (Nat × Nat) × FlmBest :=
  idxs.foldl
    (fun acc j =>
      if j < blo || bhi ≤ j then acc
      else
        let prev := if j == 0 then 0 else lookupJ2 j2len (j - 1)
        let k := prev + 1
        let nb := if acc.2.size < k then (⟨i + 1 - k, j + 1 - k, k⟩ : FlmBest) else acc.2
        ((j, k) :: acc.1, nb))
    start

/-- The dynamic scan of `find_longest_match` over `i ∈ [alo, ahi)`. -/
def flmScan (a : List Char) (b2j : List (Char × List Nat)) (alo ahi blo bhi : Nat) :
    FlmBest :=
  ((List.range (ahi - alo)).foldl
    (fun (acc : List (Nat × Nat) × FlmBest) d =>
      let i := alo + d
      flmInner i blo bhi acc.1 (getIdxs b2j (a.getD i ' ')) ([], acc.2))
    ([], ⟨alo, blo, 0⟩)).2

/-- First extension loop: grow the match downwards while the preceding
characters agree.  Fuel `besti` bounds the iterations exactly, since each
step decrements `besti`. -/
def extendLow (a b : List Char) (alo blo : Nat) : Nat → FlmBest → FlmBest
  | 0, m => m
  | fuel + 1, m =>
    if alo < m.besti && blo < m.bestj &&
       (a.getD (m.besti - 1) ' ' == b.getD (m.bestj - 1) ' ')
    then extendLow a b alo blo fuel ⟨m.besti - 1, m.bestj - 1, m.size + 1⟩
    else m

/-- Second extension loop: grow the match upwards while the following
characters agree. -/
def extendHigh (a b : List Char) (ahi bhi : Nat) : Nat → FlmBest → FlmBest
  | 0, m => m
  | fuel + 1, m =>
    if m.besti + m.size < ahi && m.bestj + m.size < bhi &&
       (a.getD (m.besti + m.size) ' ' == b.getD (m.bestj + m.size) ' ')
    then extendHigh a b ahi bhi fuel ⟨m.besti, m.bestj, m.size + 1⟩
    else m

/-- difflib `find_longest_match` on `a[alo:ahi] × b[blo:bhi]` with an empty
junk set. -/
def find_longest_match (a b : List Char) (b2j : List (Char × List Nat))
    (alo ahi blo bhi : Nat) : FlmBest :=
  let m := flmScan a b2j alo ahi blo bhi
  let m := extendLow a b alo blo m.besti m
  extendHigh a b ahi bhi (ahi - (m.besti + m.size)) m

/-- Total size of the matching blocks of `a[alo:ahi] × b[blo:bhi]` (the sum
`ratio` takes).  The recursion mirrors difflib's queue; fuel bounds the depth,
which never exceeds `ahi - alo + 1` because each side of a split is strictly
narrower. -/
def matchedTotal (a b : List Char) (b2j : List (Char × List Nat)) :
    Nat → Nat → Nat → Nat → Nat → Nat
  | 0, _, _, _, _ => 0
  | fuel + 1, alo, ahi, blo, bhi =>
    let m := find_longest_match a b b2j alo ahi blo bhi
    if m.size == 0 then 0
    else
      m.size + matchedTotal a b b2j fuel alo m.besti blo m.bestj
             + matchedTotal a b b2j fuel (m.besti + m.size) ahi (m.bestj + m.size) bhi

/-- The number of matched characters `M` of `SequenceMatcher(None, a, b)`. -/
def smMatched (a b : List Char) : Nat :=
  matchedTotal a b (chainB b) (a.length + b.length + 1) 0 a.length 0 b.length

/-- `SequenceMatcher(None, a, b).ratio() > 0.6`, decided exactly in integers
(see the section comment; `ratio` of two empty strings is `1.0`). -/
def similarityExceedsThreshold (a b : List Char) : Bool :=
  let t := a.length + b.length
  if t == 0 then true
  else decide (3 * t < 10 * smMatched a b)

/-! ## Data model: one entry of questions.json -/

/-- One record of the persisted `questions` array, with the exact fields
`ask` writes.  `answer` and `published` are absent until `approve` sets them,
hence `Option`. -/
structure Question where
  id : Nat
  user_id : Nat
  username : String
  question : String
  status : String
  notify : Bool
  cancelled : Bool
  cancel_reason : String
  reject_reason : String
  answer : Option String
  published : Option Bool
deriving Repr, DecidableEq

/-- bot.py `MAX_PENDING_QUESTIONS`. -/
def MAX_PENDING_QUESTIONS : Nat := 3

/-- The `pending_questions` filter of `ask` and `get_remaining_attempts`:
this submitter's records with status `pending` and not cancelled. -/
def pendingFor (user : Nat) (data : List Question) : List Question :=
  data.filter (fun q => q.user_id == user && q.status == "pending" && !q.cancelled)

/-- bot.py `get_remaining_attempts` (`max(0, 3 - pending)`; Nat subtraction
truncates at zero exactly like the `max`). -/
def get_remaining_attempts (user : Nat) (data : List Question) : Nat :=
  MAX_PENDING_QUESTIONS - (pendingFor user data).length

/-- bot.py `get_question_hash`: `md5(question.lower()).hexdigest()`.  The
digest is only ever compared for equality with other digests produced the same
way, so it is modelled as the lowercased text itself (md5 collisions are
ignored, as the source implicitly does). -/
def get_question_hash (q : String) : String := pyLower q

/-- bot.py `check_question_similarity`: first non-cancelled stored question
whose lowercased, stripped text has similarity above the threshold with the
lowercased, stripped candidate; returns `(True, matched original text)` or
`(False, "")`. -/
def check_question_similarity (newQ : String) (qs : List Question) : Bool × String :=
  let nl := pyStrip (pyLower newQ)
  match qs.find? (fun q =>
      !q.cancelled &&
      similarityExceedsThreshold nl.data (pyStrip (pyLower q.question)).data) with
  | some q => (true, q.question)
  | none => (false, "")

/-- bot.py `check_blacklist`: some configured banned word occurs (lowercased)
inside the lowercased question.  The blacklist file content is a parameter. -/
def check_blacklist (question : String) (blacklist : List String) : Bool :=
  blacklist.any (fun w => containsStr (pyLower question) (pyLower w))

/-! ## The admission pipeline: the /ask handler -/

/-- The session state bot.py keeps per submitter: the fingerprint list
`question_hashes[user_id]` and `spam_protection[user_id]["last_ask_time"]`
(`none` when the user has no `spam_protection` entry). -/
structure UserState where
  hashes : List String
  lastAsk : Option Int
deriving Repr, DecidableEq

/-- The rate-limit condition of `ask`:
`user_id in spam_protection and current_time - last_ask_time < 60`. -/
def rateLimited (st : UserState) (now : Int) : Bool :=
  match st.lastAsk with
  | none => false
  | some t => decide (now - t < 60)

/-- The record `ask` appends on success (id `len(questions) + 1`). -/
def mkQuestion (id user : Nat) (username question : String) : Question :=
  { id := id, user_id := user, username := username, question := question,
    status := "pending", notify := false, cancelled := false,
    cancel_reason := "", reject_reason := "", answer := none, published := none }

/-- Every distinct way the /ask handler can answer a submission attempt. -/
inductive AskResult where
  | noQuestion
  | invalidMeaning (reason : String)
  | rateLimitHit
  | duplicateHash
  | similarFound (matched : String)
  | quotaExceeded
  | badLength
  | blacklisted
  | writeError
  | accepted (newStore : List Question)
deriving Repr, DecidableEq

/-- bot.py `ask`, from the point where the question text has been extracted:
the eight admission checks in source order, then the append and write.
`writeFails` models an `IOError` from the write/verify step; only on a
successful write are the fingerprint list and `last_ask_time` updated.
Returns the handler's outcome and the submitter's new session state. -/
def ask (now : Int) (user : Nat) (username question : String) (st : UserState)
    (data : List Question) (blacklist : List String) (writeFails : Bool) :
    AskResult × UserState :=
  if question = "" then (.noQuestion, st)
  else if (check_question_meaning question).1 = false then
    (.invalidMeaning (check_question_meaning question).2, st)
  else if rateLimited st now then (.rateLimitHit, st)
  else if get_question_hash question ∈ st.hashes then (.duplicateHash, st)
  else if (check_question_similarity question data).1 then
    (.similarFound (check_question_similarity question data).2, st)
  else if MAX_PENDING_QUESTIONS ≤ (pendingFor user data).length then (.quotaExceeded, st)
  else if question.length < 5 ∨ 500 < question.length then (.badLength, st)
  else if check_blacklist question blacklist then (.blacklisted, st)
  else if writeFails then (.writeError, st)
  else (.accepted (data ++ [mkQuestion (data.length + 1) user username question]),
        { hashes := st.hashes ++ [get_question_hash question], lastAsk := some now })

/-! ## The moderation state machine -/

/-- The shared loop shape of the approve/reject/cancel/edit handlers:
`for q in data["questions"]: if <match>: <mutate>; break / else: not found`.
Returns the matched record as it stood before the mutation, together with the
mutated collection. -/
def updateFirst (p : Question → Bool) (f : Question → Question) :
    List Question → Option (Question × List Question)
  | [] => none
  | q :: rest =>
    if p q then some (q, f q :: rest)
    else (updateFirst p f rest).map (fun pr => (pr.1, q :: pr.2))

/-- The match condition of `approve` and `reject`:
`q["id"] == id and q["status"] == "pending" and not q.get("cancelled", False)`. -/
def approveMatch (qid : Nat) (q : Question) : Bool :=
  q.id == qid && q.status == "pending" && !q.cancelled

/-- The mutation of `approve`: `status = "approved"`, `answer`, `published`. -/
def approveUpdate (ans : String) (q : Question) : Question :=
  { q with status := "approved", answer := some ans, published := some true }

/-- bot.py `approve` on the collection: `none` is the "не найден, обработан
или аннулирован" (NotFound) reply, in which case nothing is written. -/
def approve (qid : Nat) (ans : String) (qs : List Question) : Option (List Question) :=
  (updateFirst (approveMatch qid) (approveUpdate ans) qs).map (fun pr => pr.2)

/-- The mutation of `reject`: `status = "rejected"`, `reject_reason`. -/
def rejectUpdate (reason : String) (q : Question) : Question :=
  { q with status := "rejected", reject_reason := reason }

/-- bot.py `reject` on the collection. -/
def reject (qid : Nat) (reason : String) (qs : List Question) : Option (List Question) :=
  (updateFirst (approveMatch qid) (rejectUpdate reason) qs).map (fun pr => pr.2)

/-- The match condition of `cancel` and `edit`:
`q["id"] == id and not q.get("cancelled", False)` — any status. -/
def cancelMatch (qid : Nat) (q : Question) : Bool :=
  q.id == qid && !q.cancelled

/-- The mutation of `cancel`: `status = "cancelled"`, `cancelled = True`,
`cancel_reason`. -/
def cancelUpdate (reason : String) (q : Question) : Question :=
  { q with status := "cancelled", cancelled := true, cancel_reason := reason }

/-- bot.py `cancel` on the collection. -/
def cancel (qid : Nat) (reason : String) (qs : List Question) : Option (List Question) :=
  (updateFirst (cancelMatch qid) (cancelUpdate reason) qs).map (fun pr => pr.2)

/-- The mutation of `edit`: rewrite the text only. -/
def editUpdate (newQ : String) (q : Question) : Question :=
  { q with question := newQ }

/-- bot.py `edit` on the collection. -/
def edit (qid : Nat) (newQ : String) (qs : List Question) : Option (List Question) :=
  (updateFirst (cancelMatch qid) (editUpdate newQ) qs).map (fun pr => pr.2)

/-- bot.py `delete`: drop every record with the given id; `none` (NotFound,
nothing written) when the length did not change. -/
def delete (qid : Nat) (qs : List Question) : Option (List Question) :=
  let remaining := qs.filter (fun q => q.id != qid)
  if remaining.length = qs.length then none else some remaining

/-- The `active_questions` filter of the /list handler
(`[q for q in data["questions"] if not q.get("cancelled", False)]`). -/
def list_questions (data : List Question) : List Question :=
  data.filter (fun q => !q.cancelled)

/-! ## The /approve handler with notification delivery (for C7) -/

/-- What becomes of one moderation command: the NotFound reply, a persisted
new collection, a write IOError (caught, old collection kept), or an
exception escaping the handler before the write (nothing persisted). -/
inductive ModOutcome where
  | notFound
  | ok (newStore : List Question)
  | writeIOError
  | crashed
deriving Repr, DecidableEq

/-- bot.py `approve`, control flow of one invocation after parsing: find and
mutate the record; if its `notify` flag is set, send the MarkdownV2 message —
on failure log and send the plain-text fallback, which is NOT wrapped in
try/except, so when it also fails the exception leaves the handler (only
`ValueError` is caught) and the file write that follows never runs.  Only
after the notification block does the handler write the collection. -/
def approveHandler (qid : Nat) (ans : String) (qs : List Question)
    (richSendFails plainSendFails writeFails : Bool) : ModOutcome :=
  match updateFirst (approveMatch qid) (approveUpdate ans) qs with
  | none => .notFound
  | some pr =>
    if pr.1.notify && richSendFails && plainSendFails then .crashed
    else if writeFails then .writeIOError
    else .ok pr.2

/-! ## server.py: the write API -/

/-- The HTTP statuses `update_questions` can answer with. -/
inductive ApiResult where
  | unauthorized
  | badRequest
  | okUpdated
deriving Repr, DecidableEq

/-- server.py `update_questions`: 401 when the Authorization header (possibly
absent) is not `Bearer <secret>`, 400 when the body is missing or has no
`questions` key (`body = none`), else the collection is replaced.  The second
component is the persisted collection after the request. -/
def update_questions (authHeader : Option String) (secret : String)
    (body : Option (List Question)) (stored : List Question) :
    ApiResult × List Question :=
  if authHeader ≠ some ("Bearer " ++ secret) then (.unauthorized, stored)
  else
    match body with
    | none => (.badRequest, stored)
    | some qs => (.okUpdated, qs)

/-! ## Reachable stores -/

/-- The collections reachable from the empty store through the submit /
approve / reject / cancel / edit operations (each successful operation is
followed by a write in the source, so the collection argument of the next
operation is the previous result). -/
inductive Reachable : List Question → Prop where
  | nil : Reachable []
  | submit {qs qs' : List Question} (now : Int) (user : Nat) (uname text : String)
      (st st' : UserState) (bl : List String) :
      Reachable qs → ask now user uname text st qs bl false = (.accepted qs', st') →
      Reachable qs'
  | approve_step {qs qs' : List Question} (qid : Nat) (ans : String) :
      Reachable qs → approve qid ans qs = some qs' → Reachable qs'
  | reject_step {qs qs' : List Question} (qid : Nat) (reason : String) :
      Reachable qs → reject qid reason qs = some qs' → Reachable qs'
  | cancel_step {qs qs' : List Question} (qid : Nat) (reason : String) :
      Reachable qs → cancel qid reason qs = some qs' → Reachable qs'
  | edit_step {qs qs' : List Question} (qid : Nat) (newQ : String) :
      Reachable qs → edit qid newQ qs = some qs' → Reachable qs'

/-! ## Concrete fixtures used by witnesses and counterexamples -/

/-- A pending record as `ask` would create it for user 42. -/
def c2q : Question := mkQuestion 1 42 "user" "Какая твоя любимая игра?"

/-- `c2q` after `approve 1 "Minecraft"`. -/
def c2qApproved : Question :=
  { c2q with status := "approved", answer := some "Minecraft", published := some true }

/-- An already approved record (for cancelling from a terminal status). -/
def c3qApproved : Question :=
  { mkQuestion 1 42 "user" "Какая твоя любимая игра?" with
    status := "approved", answer := some "Minecraft", published := some true }

/-- An already cancelled record. -/
def c3qCancelled : Question :=
  { mkQuestion 2 42 "user" "Какой твой ник?" with
    status := "cancelled", cancelled := true, cancel_reason := "спам" }

/-- Three non-cancelled pending records of user 7 (the quota is full). -/
def threePending7 : List Question :=
  [mkQuestion 1 7 "u" "а?", mkQuestion 2 7 "u" "б?", mkQuestion 3 7 "u" "в?"]

/-- A pending record whose submitter opted into notifications. -/
def c7q : Question := { mkQuestion 1 9 "u" "Какой твой ник?" with notify := true }

/-- A store with a duplicate id (ids 1, 2, 1). -/
def c10store : List Question :=
  [mkQuestion 1 4 "a" "Какая твоя любимая игра?",
   mkQuestion 2 5 "b" "Какой твой ник?",
   { mkQuestion 1 6 "c" "Сколько лет ты уже стримишь?" with status := "approved" }]

/-- The record of the C4 counterexample run right after submission. -/
def c4rec0 : Question := mkQuestion 1 42 "user" "Какая твоя любимая игра?"

/-- `c4rec0` after `approve 1 "Minecraft"`. -/
def c4rec1 : Question :=
  { c4rec0 with status := "approved", answer := some "Minecraft", published := some true }

/-- `c4rec1` after `cancel 1 "нарушение"`: a cancelled record that still
carries an answer. -/
def c4rec2 : Question :=
  { c4rec1 with status := "cancelled", cancelled := true, cancel_reason := "нарушение" }

/-- Question texts of the C5 counterexample run. -/
def c5q1 : String := "Какая твоя любимая игра?"

/-- Second question of the C5 counterexample run. -/
def c5q2 : String := "Сколько лет ты уже стримишь?"

/-- Third question of the C5 counterexample run. -/
def c5q3 : String := "Что думаешь про новые игры?"

/-- Store after the first C5 submit. -/
def c5s1 : List Question := [mkQuestion 1 1 "a" c5q1]

/-- Store after the second C5 submit. -/
def c5s2 : List Question := c5s1 ++ [mkQuestion 2 2 "b" c5q2]

/-- Store after `delete 1`. -/
def c5s3 : List Question := [mkQuestion 2 2 "b" c5q2]

/-- Store after the third C5 submit: two records share id 2. -/
def c5s4 : List Question := c5s3 ++ [mkQuestion 2 3 "c" c5q3]

/-! ## Invariants used by C4 and C5 -/

/-- The C4 data-model invariant, as it actually holds on the code: a record
with status `approved` has an answer, and a record with an answer has status
`approved` or `cancelled` (an approved record keeps its answer when it is
later cancelled). -/
def AnswerInv (qs : List Question) : Prop :=
  ∀ q ∈ qs, (q.status = "approved" → q.answer.isSome = true) ∧
            (q.answer.isSome = true → q.status = "approved" ∨ q.status = "cancelled")

/-! ## Generic lemmas about the embedded operations -/

theorem updateFirst_eq_none {p : Question → Bool} {f : Question → Question} :
    ∀ {qs : List Question}, updateFirst p f qs = none ↔ ∀ q ∈ qs, p q = false := by
  intro qs
  induction qs with
  | nil => simp [updateFirst]
  | cons q rest ih =>
    by_cases h : p q <;> simp [updateFirst, h, ih]

theorem updateFirst_cons_match {p : Question → Bool} {f : Question → Question}
    {q : Question} (rest : List Question) (h : p q = true) :
    updateFirst p f (q :: rest) = some (q, f q :: rest) := by
  simp [updateFirst, h]

theorem updateFirst_cons_nomatch {p : Question → Bool} {f : Question → Question}
    {q : Question} (rest : List Question) (h : p q = false) :
    updateFirst p f (q :: rest) =
      (updateFirst p f rest).map (fun pr => (pr.1, q :: pr.2)) := by
  simp [updateFirst, h]

theorem updateFirst_append_skip {p : Question → Bool} {f : Question → Question}
    {l₁ : List Question} (rest : List Question) (h : ∀ q ∈ l₁, p q = false) :
    updateFirst p f (l₁ ++ rest) =
      (updateFirst p f rest).map (fun pr => (pr.1, l₁ ++ pr.2)) := by
  induction l₁ with
  | nil => simp
  | cons q l ih =>
    have hq : p q = false := h q (by simp)
    have hl : ∀ x ∈ l, p x = false := fun x hx => h x (by simp [hx])
    rw [List.cons_append, updateFirst_cons_nomatch _ hq, ih hl]
    cases updateFirst p f rest <;> simp

theorem updateFirst_some_shape {p : Question → Bool} {f : Question → Question} :
    ∀ {qs : List Question} {pr : Question × List Question},
      updateFirst p f qs = some pr →
      ∃ l₁ l₂, qs = l₁ ++ pr.1 :: l₂ ∧ pr.2 = l₁ ++ f pr.1 :: l₂ ∧
        p pr.1 = true ∧ ∀ q ∈ l₁, p q = false := by
  intro qs
  induction qs with
  | nil => simp [updateFirst]
  | cons q rest ih =>
    intro pr h
    by_cases hq : p q
    · rw [updateFirst_cons_match rest hq] at h
      refine ⟨[], rest, ?_⟩
      cases h
      simp [hq]
    · simp only [updateFirst, hq, Bool.false_eq_true, if_false, Option.map_eq_some'] at h
      obtain ⟨pr', hpr', rfl⟩ := h
      obtain ⟨l₁, l₂, h1, h2, h3, h4⟩ := ih hpr'
      refine ⟨q :: l₁, l₂, ?_, ?_, h3, ?_⟩
      · simp [h1]
      · simp [h2]
      · intro x hx
        rcases List.mem_cons.mp hx with rfl | hx
        · simpa using hq
        · exact h4 x hx

/-- Both sides of a successful `updateFirst` keep the same image under any
record function that the mutation preserves. -/
theorem updateFirst_map_eq {α : Type} (g : Question → α) {p : Question → Bool}
    {f : Question → Question} (hf : ∀ q, g (f q) = g q) {qs : List Question}
    {pr : Question × List Question} (h : updateFirst p f qs = some pr) :
    pr.2.map g = qs.map g := by
  obtain ⟨l₁, l₂, h1, h2, _, _⟩ := updateFirst_some_shape h
  simp [h1, h2, hf]

/-- A successful `ask` appends exactly one fresh pending record with id
`len + 1`. -/
theorem ask_accepted_shape {now : Int} {user : Nat} {uname question : String}
    {st st' : UserState} {data qs' : List Question} {bl : List String} {wf : Bool}
    (h : ask now user uname question st data bl wf = (.accepted qs', st')) :
    qs' = data ++ [mkQuestion (data.length + 1) user uname question] := by
  unfold ask at h
  split_ifs at h <;> simp_all

/-! ## Claim C1 -/

set_option maxHeartbeats 4000000 in
/-- Claim C1: for every submission attempt the admission pipeline applies its
checks in the fixed order non-empty, semantic-plausibility, rate-limit,
exact-duplicate, near-duplicate, outstanding-quota, length-bounds, denylist;
it short-circuits at the first failing check with that check's reason, and a
new pending record is appended to the store exactly when every check
passes. -/
theorem c1_pipeline_order (now : Int) (user : Nat) (uname question : String)
    (st : UserState) (data : List Question) (bl : List String) :
    (ask now user uname question st data bl false = (.noQuestion, st) ↔ question = "")
    ∧ (∀ r, ask now user uname question st data bl false = (.invalidMeaning r, st) ↔
        question ≠ "" ∧ check_question_meaning question = (false, r))
    ∧ (ask now user uname question st data bl false = (.rateLimitHit, st) ↔
        question ≠ "" ∧ (check_question_meaning question).1 = true ∧
        rateLimited st now = true)
    ∧ (ask now user uname question st data bl false = (.duplicateHash, st) ↔
        question ≠ "" ∧ (check_question_meaning question).1 = true ∧
        rateLimited st now = false ∧ get_question_hash question ∈ st.hashes)
    ∧ (∀ m, ask now user uname question st data bl false = (.similarFound m, st) ↔
        question ≠ "" ∧ (check_question_meaning question).1 = true ∧
        rateLimited st now = false ∧ get_question_hash question ∉ st.hashes ∧
        check_question_similarity question data = (true, m))
    ∧ (ask now user uname question st data bl false = (.quotaExceeded, st) ↔
        question ≠ "" ∧ (check_question_meaning question).1 = true ∧
        rateLimited st now = false ∧ get_question_hash question ∉ st.hashes ∧
        (check_question_similarity question data).1 = false ∧
        MAX_PENDING_QUESTIONS ≤ (pendingFor user data).length)
    ∧ (ask now user uname question st data bl false = (.badLength, st) ↔
        question ≠ "" ∧ (check_question_meaning question).1 = true ∧
        rateLimited st now = false ∧ get_question_hash question ∉ st.hashes ∧
        (check_question_similarity question data).1 = false ∧
        (pendingFor user data).length < MAX_PENDING_QUESTIONS ∧
        (question.length < 5 ∨ 500 < question.length))
    ∧ (ask now user uname question st data bl false = (.blacklisted, st) ↔
        question ≠ "" ∧ (check_question_meaning question).1 = true ∧
        rateLimited st now = false ∧ get_question_hash question ∉ st.hashes ∧
        (check_question_similarity question data).1 = false ∧
        (pendingFor user data).length < MAX_PENDING_QUESTIONS ∧
        5 ≤ question.length ∧ question.length ≤ 500 ∧
        check_blacklist question bl = true)
    ∧ (ask now user uname question st data bl false =
        (.accepted (data ++ [mkQuestion (data.length + 1) user uname question]),
         { hashes := st.hashes ++ [get_question_hash question], lastAsk := some now }) ↔
        question ≠ "" ∧ (check_question_meaning question).1 = true ∧
        rateLimited st now = false ∧ get_question_hash question ∉ st.hashes ∧
        (check_question_similarity question data).1 = false ∧
        (pendingFor user data).length < MAX_PENDING_QUESTIONS ∧
        5 ≤ question.length ∧ question.length ≤ 500 ∧
        check_blacklist question bl = false) := by
  refine ⟨?_, ?_, ?_, ?_, ?_, ?_, ?_, ?_, ?_⟩ <;>
    (intros
     unfold ask
     split_ifs <;> (try simp_all [Prod.ext_iff, not_or]) <;> omega)

/-! ## Claim C2 -/

/-- Claim C2: `approve(id, answer)` on a record whose status is `pending` and
which is not cancelled sets its status to `approved` and stores the answer
(the record's `response_text`); a second `approve` with the same id then
returns NotFound, there being no other record with that id. -/
theorem c2_approve_then_notfound (qid : Nat) (ans ans2 : String)
    (l₁ l₂ : List Question) (q : Question)
    (hid : q.id = qid) (hst : q.status = "pending") (hc : q.cancelled = false)
    (hothers : ∀ p ∈ l₁ ++ l₂, p.id ≠ qid) :
    approve qid ans (l₁ ++ q :: l₂) =
      some (l₁ ++ { q with status := "approved", answer := some ans,
                           published := some true } :: l₂) ∧
    approve qid ans2 (l₁ ++ { q with status := "approved", answer := some ans,
                                     published := some true } :: l₂) = none := by
  have hm : approveMatch qid q = true := by
    simp [approveMatch, hid, hst, hc]
  have hl₁ : ∀ p ∈ l₁, approveMatch qid p = false := by
    intro p hp
    have hne := hothers p (List.mem_append_left _ hp)
    simp [approveMatch, hne]
  constructor
  · unfold approve
    rw [updateFirst_append_skip _ hl₁, updateFirst_cons_match _ hm]
    simp [approveUpdate]
  · suffices hnone : updateFirst (approveMatch qid)
        (approveUpdate ans2)
        (l₁ ++ { q with status := "approved", answer := some ans,
                        published := some true } :: l₂) = none by
      simp [approve, hnone]
    refine updateFirst_eq_none.mpr ?_
    intro x hx
    rcases List.mem_append.mp hx with hx | hx
    · exact hl₁ x hx
    · rcases List.mem_cons.mp hx with rfl | hx
      · simp [approveMatch]
      · have hne := hothers x (List.mem_append_right _ hx)
        simp [approveMatch, hne]

/-- Witness for C2 at a concrete store. -/
theorem c2_witness :
    approve 1 "Minecraft" [c2q] = some [c2qApproved] ∧
    approve 1 "Again" [c2qApproved] = none := by
  have h := c2_approve_then_notfound 1 "Minecraft" "Again" [] [] c2q
    rfl rfl rfl (by intro p hp; simp at hp)
  simpa [c2q, c2qApproved] using h

/-! ## Claim C3 -/

/-- A record failing the premise of the cancel loop does not match. -/
theorem cancelMatch_eq_false {qid : Nat} {p : Question}
    (hp : p.id = qid → p.cancelled = true) : cancelMatch qid p = false := by
  by_cases h : p.id = qid
  · simp [cancelMatch, h, hp h]
  · simp [cancelMatch, h]

/-- Claim C3: `cancel(id, reason)` on any record that is not already
cancelled — whatever its status — sets `status = cancelled`,
`is_cancelled = true` and stores the reason; it returns NotFound when every
record with that id is missing or already cancelled; and the cancelled record
disappears from the active listing. -/
theorem c3_cancel_spec (qid : Nat) (r : String) :
    (∀ qs : List Question, (∀ q ∈ qs, q.id = qid → q.cancelled = true) →
        cancel qid r qs = none) ∧
    (∀ (l₁ l₂ : List Question) (q : Question),
        (∀ p ∈ l₁, p.id = qid → p.cancelled = true) → q.id = qid → q.cancelled = false →
        cancel qid r (l₁ ++ q :: l₂) =
          some (l₁ ++ { q with status := "cancelled", cancelled := true,
                               cancel_reason := r } :: l₂) ∧
        list_questions (l₁ ++ { q with status := "cancelled", cancelled := true,
                                       cancel_reason := r } :: l₂) =
          list_questions l₁ ++ list_questions l₂) := by
  constructor
  · intro qs h
    suffices hnone : updateFirst (cancelMatch qid) (cancelUpdate r) qs = none by
      simp [cancel, hnone]
    exact updateFirst_eq_none.mpr fun x hx => cancelMatch_eq_false (h x hx)
  · intro l₁ l₂ q hl hid hcanc
    have hm : cancelMatch qid q = true := by simp [cancelMatch, hid, hcanc]
    have hl₁ : ∀ p ∈ l₁, cancelMatch qid p = false :=
      fun p hp => cancelMatch_eq_false (hl p hp)
    constructor
    · unfold cancel
      rw [updateFirst_append_skip _ hl₁, updateFirst_cons_match _ hm]
      simp [cancelUpdate]
    · simp [list_questions, List.filter_append]

/-- Witness for C3: cancelling an approved record succeeds and hides it from
the active listing; cancelling an id whose only record is already cancelled
returns NotFound. -/
theorem c3_witness :
    cancel 1 "нарушение" [c3qApproved] =
      some [{ c3qApproved with status := "cancelled", cancelled := true,
                               cancel_reason := "нарушение" }] ∧
    list_questions [{ c3qApproved with status := "cancelled", cancelled := true,
                                       cancel_reason := "нарушение" }] = [] ∧
    cancel 2 "повтор" [c3qCancelled] = none := by
  have h2 := (c3_cancel_spec 1 "нарушение").2 [] [] c3qApproved
    (by intro p hp; simp at hp) rfl rfl
  have h1 := (c3_cancel_spec 2 "повтор").1 [c3qCancelled]
    (by intro p hp; simp at hp; simp [hp, c3qCancelled])
  refine ⟨by simpa using h2.1, by simpa using h2.2, h1⟩

/-! ## Claim C6 (corrected) -/

/-- Counterexample to C6 as stated: user 7 has exactly three non-cancelled
pending records, yet a fourth submission with the invalid text `"ааааа"` is
rejected with the semantic-plausibility reason, not the quota reason — the
quota check runs only sixth. -/
theorem c6_counterexample :
    (pendingFor 7 threePending7).length = 3 ∧
    (ask 1000 7 "u" "ааааа" ⟨[], none⟩ threePending7 [] false).1 =
      .invalidMeaning "Вопрос слишком короткий (менее 10 символов)." ∧
    (ask 1000 7 "u" "ааааа" ⟨[], none⟩ threePending7 [] false).1 ≠ .quotaExceeded := by
  refine ⟨by decide, by decide, by decide⟩

/-- Claim C6 as amended: for a submitter with at least three non-cancelled
pending records, a further submission whose text passes the five checks that
run before the quota gate (non-empty, semantic plausibility, rate limit,
exact duplicate, near duplicate) is rejected with the quota reason — in
particular regardless of whether the later length-bounds or denylist checks
would pass.  A text failing one of the five earlier checks is instead
rejected with that earlier check's reason. -/
theorem c6_amended_quota (now : Int) (user : Nat) (uname question : String)
    (st : UserState) (data : List Question) (bl : List String)
    (h1 : question ≠ "") (h2 : (check_question_meaning question).1 = true)
    (h3 : rateLimited st now = false)
    (h4 : get_question_hash question ∉ st.hashes)
    (h5 : (check_question_similarity question data).1 = false)
    (hq : MAX_PENDING_QUESTIONS ≤ (pendingFor user data).length) :
    (ask now user uname question st data bl false).1 = .quotaExceeded := by
  unfold ask
  split_ifs <;> simp_all

/-- Witness for the amended C6 at a concrete full-quota store. -/
theorem c6_witness :
    (ask 1000 7 "u" "Какая твоя любимая игра?" ⟨[], none⟩ threePending7 [] false).1 =
      .quotaExceeded := by
  exact c6_amended_quota 1000 7 "u" "Какая твоя любимая игра?" ⟨[], none⟩
    threePending7 [] (by decide) (by decide) (by decide) (by decide) (by decide)
    (by decide)

/-! ## Claim C7 (code bug) -/

/-- Claim C7 fails on the code: approving a pending record whose submitter
opted into notifications, when both the MarkdownV2 send and its plain-text
fallback raise, lets the exception escape the handler before the store write
— the approval is not persisted (`crashed`), where the spec requires the
moderation action to survive any delivery failure.  When only the rich send
fails, the fallback runs and the approval is persisted. -/
theorem c7_delivery_crash :
    approveHandler 1 "ans" [c7q] true true false = .crashed ∧
    approveHandler 1 "ans" [c7q] true false false =
      .ok [{ c7q with status := "approved", answer := some "ans",
                      published := some true }] := by
  refine ⟨by decide, by decide⟩

/-! ## Claim C8 -/

/-- Claim C8: when the store write at the end of an otherwise successful
submission fails, the submitter's in-memory session state is returned
unchanged — the content fingerprint is not recorded and `last_ask_time` is
not updated (both happen only after a verified write in the source). -/
theorem c8_write_failure_keeps_state (now : Int) (user : Nat)
    (uname question : String) (st : UserState) (data : List Question)
    (bl : List String)
    (h1 : question ≠ "") (h2 : (check_question_meaning question).1 = true)
    (h3 : rateLimited st now = false)
    (h4 : get_question_hash question ∉ st.hashes)
    (h5 : (check_question_similarity question data).1 = false)
    (h6 : (pendingFor user data).length < MAX_PENDING_QUESTIONS)
    (h7 : 5 ≤ question.length) (h8 : question.length ≤ 500)
    (h9 : check_blacklist question bl = false) :
    ask now user uname question st data bl true = (.writeError, st) := by
  unfold ask
  split_ifs <;> simp_all <;> omega

/-- Witness for C8 at a concrete valid submission. -/
theorem c8_witness :
    ask 0 42 "user" "Какая твоя любимая игра?" ⟨["прошлый вопрос"], some (-100)⟩
      [] [] true = (.writeError, ⟨["прошлый вопрос"], some (-100)⟩) := by
  exact c8_write_failure_keeps_state 0 42 "user" "Какая твоя любимая игра?"
    ⟨["прошлый вопрос"], some (-100)⟩ [] [] (by decide) (by decide) (by decide)
    (by decide) (by decide) (by decide) (by decide) (by decide) (by decide)

/-! ## Claim C9 -/

/-- Claim C9: a write-API request whose credential does not match
`Bearer <secret>` (including a missing header) is answered 401 Unauthorized
and the persisted collection is returned unchanged. -/
theorem c9_unauthorized_no_side_effect (auth : Option String) (secret : String)
    (body : Option (List Question)) (stored : List Question)
    (h : auth ≠ some ("Bearer " ++ secret)) :
    update_questions auth secret body stored = (.unauthorized, stored) := by
  simp [update_questions, h]

/-- Witness for C9 with a wrong bearer token and a non-empty body. -/
theorem c9_witness :
    (some "Bearer wrong" ≠ some ("Bearer " ++ "s3cret")) ∧
    update_questions (some "Bearer wrong") "s3cret" (some []) [c7q] =
      (.unauthorized, [c7q]) := by
  exact ⟨by decide, c9_unauthorized_no_side_effect (some "Bearer wrong") "s3cret"
    (some []) [c7q] (by decide)⟩

/-! ## Claim C10 -/

/-- Claim C10: `delete(id)` removes every record whose id equals the given id
(all of them when ids are duplicated), leaves the other records unchanged in
content and relative order (the collection becomes exactly the filter on
`id ≠ qid`), and returns NotFound — writing nothing — exactly when no record
has that id. -/
theorem c10_delete_frame (qid : Nat) (qs : List Question) :
    (delete qid qs = none ↔ ∀ q ∈ qs, q.id ≠ qid) ∧
    (∀ qs', delete qid qs = some qs' → qs' = qs.filter (fun q => q.id != qid)) ∧
    ((∃ q ∈ qs, q.id = qid) → delete qid qs = some (qs.filter (fun q => q.id != qid))) := by
  have hlen : (qs.filter (fun q => q.id != qid)).length = qs.length ↔
      ∀ q ∈ qs, q.id ≠ qid := by
    constructor
    · intro h q hq hcontra
      have heq := (List.filter_sublist (l := qs)).eq_of_length h
      have hq' : q ∈ qs.filter (fun q => q.id != qid) := by rw [heq]; exact hq
      have := List.of_mem_filter hq'
      simp [hcontra] at this
    · intro h
      have : qs.filter (fun q => q.id != qid) = qs :=
        List.filter_eq_self.mpr (by intro a ha; simpa using h a ha)
      simp [this]
  by_cases hc : (qs.filter (fun q => q.id != qid)).length = qs.length
  · have hd : delete qid qs = none := by simp [delete, hc]
    refine ⟨⟨fun _ => hlen.1 hc, fun _ => hd⟩, ?_, ?_⟩
    · intro qs' h
      rw [hd] at h
      cases h
    · rintro ⟨q, hq, hid⟩
      exact absurd hid (hlen.1 hc q hq)
  · have hd : delete qid qs = some (qs.filter (fun q => q.id != qid)) := by
      simp [delete, hc]
    refine ⟨?_, ?_, fun _ => hd⟩
    · rw [hd]
      simp only [Option.some_ne_none, false_iff]
      intro h
      exact hc (hlen.mpr h)
    · intro qs' h
      rw [hd] at h
      exact (Option.some_inj.mp h).symm

/-! ## Claim C4 (corrected) -/

/-- A per-record property survives `updateFirst` when the mutation preserves
it on matched records. -/
theorem updateFirst_preserves (P : Question → Prop) {p : Question → Bool}
    {f : Question → Question} (hf : ∀ q, P q → p q = true → P (f q))
    {qs : List Question} {pr : Question × List Question}
    (hall : ∀ q ∈ qs, P q) (h : updateFirst p f qs = some pr) :
    ∀ q ∈ pr.2, P q := by
  obtain ⟨l₁, l₂, h1, h2, h3, h4⟩ := updateFirst_some_shape h
  rw [h1] at hall
  intro q hq
  rw [h2] at hq
  rcases List.mem_append.mp hq with hq | hq
  · exact hall q (List.mem_append_left _ hq)
  · rcases List.mem_cons.mp hq with rfl | hq
    · exact hf _ (hall _ (List.mem_append_right _ (List.mem_cons_self _ _))) h3
    · exact hall q (List.mem_append_right _ (List.mem_cons_of_mem _ hq))

/-- Counterexample to C4 as stated: the store holding only `c4rec2` is
reachable (submit, then approve with answer `"Minecraft"`, then cancel), and
`c4rec2` has a `response_text` present while its status is `cancelled`, not
`approved` — `cancel` does not clear the answer of a previously approved
record. -/
theorem c4_counterexample :
    Reachable [c4rec2] ∧ c4rec2.answer.isSome = true ∧ c4rec2.status ≠ "approved" := by
  refine ⟨?_, by decide, by decide⟩
  have h0 : Reachable [c4rec0] :=
    Reachable.submit 0 42 "user" "Какая твоя любимая игра?" ⟨[], none⟩
      ⟨[get_question_hash "Какая твоя любимая игра?"], some 0⟩ [] Reachable.nil
      (by decide)
  have h1 : Reachable [c4rec1] := Reachable.approve_step 1 "Minecraft" h0 (by decide)
  exact Reachable.cancel_step 1 "нарушение" h1 (by decide)

/-- Claim C4 as amended: in every reachable store, a record with status
`approved` has a `response_text`, and a record with a `response_text` has
status `approved` or `cancelled` (the answer survives a later cancellation);
records with status `pending` or `rejected` never carry one. -/
theorem c4_amended_answer_invariant (qs : List Question) (h : Reachable qs) :
    AnswerInv qs := by
  simp only [AnswerInv]
  induction h with
  | nil => intro q hq; simp at hq
  | submit now user uname text st st' bl hr heq ih =>
    have hshape := ask_accepted_shape heq
    subst hshape
    intro q hq
    rcases List.mem_append.mp hq with hq | hq
    · exact ih q hq
    · rw [List.mem_singleton] at hq
      subst hq
      exact ⟨by simp [mkQuestion], by simp [mkQuestion]⟩
  | approve_step qid ans hr heq ih =>
    unfold approve at heq
    obtain ⟨pr, hupd, hpr⟩ := Option.map_eq_some'.mp heq
    intro q hq
    rw [← hpr] at hq
    refine updateFirst_preserves _ ?_ ih hupd q hq
    intro x _ _
    exact ⟨fun _ => by simp [approveUpdate], fun _ => Or.inl (by simp [approveUpdate])⟩
  | reject_step qid reason hr heq ih =>
    unfold reject at heq
    obtain ⟨pr, hupd, hpr⟩ := Option.map_eq_some'.mp heq
    intro q hq
    rw [← hpr] at hq
    refine updateFirst_preserves _ ?_ ih hupd q hq
    intro x hPx hmatch
    have hpend : x.status = "pending" := by
      simp only [approveMatch, Bool.and_eq_true, beq_iff_eq, Bool.not_eq_true'] at hmatch
      exact hmatch.1.2
    constructor
    · intro habs
      simp [rejectUpdate] at habs
    · intro hsome
      have hx := hPx.2 (by simpa [rejectUpdate] using hsome)
      rw [hpend] at hx
      rcases hx with hx | hx <;> exact absurd hx (by decide)
  | cancel_step qid reason hr heq ih =>
    unfold cancel at heq
    obtain ⟨pr, hupd, hpr⟩ := Option.map_eq_some'.mp heq
    intro q hq
    rw [← hpr] at hq
    refine updateFirst_preserves _ ?_ ih hupd q hq
    intro x hPx hmatch
    constructor
    · intro habs
      simp [cancelUpdate] at habs
    · intro _
      exact Or.inr (by simp [cancelUpdate])
  | edit_step qid newQ hr heq ih =>
    unfold edit at heq
    obtain ⟨pr, hupd, hpr⟩ := Option.map_eq_some'.mp heq
    intro q hq
    rw [← hpr] at hq
    refine updateFirst_preserves _ ?_ ih hupd q hq
    intro x hPx _
    simpa [editUpdate] using hPx

/-- Witness for the amended C4 on a concrete reachable one-record store. -/
theorem c4_witness : AnswerInv [c4rec0] :=
  c4_amended_answer_invariant [c4rec0]
    (Reachable.submit 0 42 "user" "Какая твоя любимая игра?" ⟨[], none⟩
      ⟨[get_question_hash "Какая твоя любимая игра?"], some 0⟩ [] Reachable.nil
      (by decide))

/-! ## Claim C5 (corrected) -/

set_option maxRecDepth 20000 in
/-- Counterexample to C5 as stated: starting from the empty store, submit two
questions (ids 1 and 2), delete id 1, then submit a third question — it is
assigned id `count + 1 = 2`, so the store now holds two records with id 2:
uniqueness is not preserved across delete. -/
theorem c5_counterexample :
    (ask 0 1 "a" c5q1 ⟨[], none⟩ [] [] false).1 = .accepted c5s1 ∧
    (ask 100 2 "b" c5q2 ⟨[], none⟩ c5s1 [] false).1 = .accepted c5s2 ∧
    delete 1 c5s2 = some c5s3 ∧
    (ask 200 3 "c" c5q3 ⟨[], none⟩ c5s3 [] false).1 = .accepted c5s4 ∧
    c5s4.map (fun q => q.id) = [2, 2] ∧ ¬ (c5s4.map (fun q => q.id)).Nodup := by
  exact ⟨by decide, by decide, by decide, by decide, by decide, by decide⟩

/-- The four record-mutating moderation operations keep every id and the
collection length. -/
theorem op_preserves_ids {p : Question → Bool} {f : Question → Question}
    {qs qs' : List Question}
    (h : (updateFirst p f qs).map (fun pr => pr.2) = some qs')
    (hf : ∀ q, (f q).id = q.id) :
    qs'.map (fun q => q.id) = qs.map (fun q => q.id) ∧ qs'.length = qs.length := by
  obtain ⟨pr, hupd, hpr⟩ := Option.map_eq_some'.mp h
  have hm := updateFirst_map_eq (fun q => q.id) hf hupd
  subst hpr
  refine ⟨hm, ?_⟩
  have hl := congrArg List.length hm
  simpa using hl

/-- Claim C5 as amended: ids are assigned at creation as `count + 1`, and
along any sequence of submit / approve / reject / cancel / edit operations
(no delete) the ids of a reachable store are exactly `1, …, n` in order — in
particular pairwise distinct.  A `delete` can break this (see the
counterexample). -/
theorem c5_amended_ids (qs : List Question) (h : Reachable qs) :
    qs.map (fun q => q.id) = List.range' 1 qs.length ∧
    (qs.map (fun q => q.id)).Nodup := by
  have hmap : qs.map (fun q => q.id) = List.range' 1 qs.length := by
    induction h with
    | nil => simp
    | submit now user uname text st st' bl hr heq ih =>
      have hshape := ask_accepted_shape heq
      subst hshape
      rw [List.map_append, ih]
      simp [mkQuestion, List.range'_concat, Nat.add_comm]
    | approve_step qid ans hr heq ih =>
      unfold approve at heq
      obtain ⟨hm, hlen⟩ := op_preserves_ids heq (fun q => rfl)
      rw [hm, hlen, ih]
    | reject_step qid reason hr heq ih =>
      unfold reject at heq
      obtain ⟨hm, hlen⟩ := op_preserves_ids heq (fun q => rfl)
      rw [hm, hlen, ih]
    | cancel_step qid reason hr heq ih =>
      unfold cancel at heq
      obtain ⟨hm, hlen⟩ := op_preserves_ids heq (fun q => rfl)
      rw [hm, hlen, ih]
    | edit_step qid newQ hr heq ih =>
      unfold edit at heq
      obtain ⟨hm, hlen⟩ := op_preserves_ids heq (fun q => rfl)
      rw [hm, hlen, ih]
  refine ⟨hmap, ?_⟩
  rw [hmap]
  exact List.nodup_range' _ _ _ Nat.one_pos

/-- Witness for the amended C5 on a concrete reachable one-record store. -/
theorem c5_witness :
    c5s1.map (fun q => q.id) = List.range' 1 c5s1.length ∧
    (c5s1.map (fun q => q.id)).Nodup :=
  c5_amended_ids c5s1
    (Reachable.submit 0 1 "a" c5q1 ⟨[], none⟩
      ⟨[get_question_hash c5q1], some 0⟩ [] Reachable.nil (by decide))

/-- Witness for C10: deleting id 1 removes both records carrying it and keeps
the middle record; deleting an absent id returns NotFound. -/
theorem c10_witness :
    delete 1 c10store = some [mkQuestion 2 5 "b" "Какой твой ник?"] ∧
    delete 5 c10store = none := by
  have h1 := (c10_delete_frame 1 c10store).2.2
    ⟨mkQuestion 1 4 "a" "Какая твоя любимая игра?", by simp [c10store], rfl⟩
  have h2 := (c10_delete_frame 5 c10store).1.mpr (by decide)
  exact ⟨by simpa [c10store, mkQuestion] using h1, h2⟩

end MortisQA
